import Mathlib

/-!
Verification development for the fling-fish websocket server.

The room and schema code (PhysicsState, Player, Shape, PhysicsRoom handlers)
is embedded as pure functions over explicit state: positions and velocities
are rationals, timestamps are integers, the per-room player map is an
association list keyed by player id, and every randomly drawn quantity
(Math.random, generated shape ids) is passed in as an explicit parameter.
Broadcasts are returned as an explicit list instead of being sent.

The stand-alone stateValidator module works over real numbers, because its
soft displacement clamp divides by a euclidean norm; it is embedded
separately further down.
-/

namespace FlingFish

/-- Association list lookup by string key, modelling reads of a JS Map:
the first binding for the key wins. -/
def lookupBy {α : Type} (k : String) (l : List (String × α)) : Option α :=
  (l.find? (fun kv => kv.1 == k)).map (fun kv => kv.2)

/-- Two dimensional vector, from the Vector schema class. -/
structure Vec where
  x : ℚ
  y : ℚ
deriving DecidableEq

/-- Shape schema class: id, position, angle, velocity and last update
timestamp.  The cosmetic color field carries no invariants and is omitted. -/
structure Shape where
  id : String
  x : ℚ
  y : ℚ
  angle : ℚ
  velocity : Vec
  lastUpdate : ℤ
deriving DecidableEq

/-- Shape.setPosition.  The source assigns the angle with
angle OR this.angle, so an incoming angle of zero (falsy in JS) leaves the
stored angle unchanged; lastUpdate is stamped with the current time. -/
def Shape.setPosition (s : Shape) (x y : ℚ) (angle : Option ℚ) (now : ℤ) : Shape :=
  { s with
    x := x
    y := y
    angle := match angle with
      | some a => if a = 0 then s.angle else a
      | none => s.angle
    lastUpdate := now }

/-- Shape.setVelocity. -/
def Shape.setVelocity (s : Shape) (vx vy : ℚ) : Shape :=
  { s with velocity := ⟨vx, vy⟩ }

/-- Player schema class: id, owned shapes in insertion order, disconnected
flag and last activity timestamp. -/
structure Player where
  id : String
  shapes : List Shape
  disconnected : Bool
  lastActivity : ℤ
deriving DecidableEq

/-- Room state: player map, server time and the fixed arena boundaries
(2400 by 1800 in the constructor). -/
structure PhysicsState where
  players : List (String × Player)
  serverTime : ℤ
  boundaryWidth : ℚ
  boundaryHeight : ℚ
deriving DecidableEq

/-- PhysicsState.getPlayer. -/
def getPlayer (st : PhysicsState) (pid : String) : Option Player :=
  lookupBy pid st.players

/-- In-place mutation of the player object stored under a key of the
players map. -/
def modifyPlayer (st : PhysicsState) (pid : String) (f : Player → Player) : PhysicsState :=
  { st with players := st.players.map (fun kv => if kv.1 == pid then (kv.1, f kv.2) else kv) }

/-- PhysicsState.removePlayer: Map delete by key. -/
def removePlayer (st : PhysicsState) (pid : String) : PhysicsState :=
  { st with players := st.players.filter (fun kv => kv.1 != pid) }

/-- PhysicsState.createPlayer: idempotent, returns the existing player map
unchanged when the id is already present, otherwise inserts a fresh player
with no shapes. -/
def createPlayer (st : PhysicsState) (pid : String) (now : ℤ) : PhysicsState :=
  if (getPlayer st pid).isSome then st
  else { st with players := st.players ++ [(pid, { id := pid, shapes := [], disconnected := false, lastActivity := now })] }

/-- PhysicsState.markPlayerConnected via Player.setConnectionStatus. -/
def markPlayerConnected (st : PhysicsState) (pid : String) (connected : Bool) (now : ℤ) : PhysicsState :=
  modifyPlayer st pid (fun p => { p with disconnected := !connected, lastActivity := now })

/-- PhysicsState.createShapeForPlayer: fails when the player is missing;
otherwise spawns a shape at x = rand times (width - 100) plus 50 and
y = height - 50 and appends it to the owner.  The generated id (player id,
timestamp and random suffix in the source) is passed in as genId; a custom
id, when supplied, wins. -/
def createShapeForPlayer (st : PhysicsState) (pid : String) (customShapeId : Option String)
    (genId : String) (randX : ℚ) (now : ℤ) : Option Shape × PhysicsState :=
  match getPlayer st pid with
  | none => (none, st)
  | some _ =>
    let shapeId := customShapeId.getD genId
    let x := randX * (st.boundaryWidth - 100) + 50
    let y := st.boundaryHeight - 50
    let shape : Shape := { id := shapeId, x := x, y := y, angle := 0, velocity := ⟨0, 0⟩, lastUpdate := now }
    (some shape, modifyPlayer st pid (fun p => { p with shapes := p.shapes ++ [shape], lastActivity := now }))

/-- Predicate selecting the players the inactivity sweep removes:
disconnected and inactive for longer than maxInactiveTime. -/
def inactivePred (maxInactiveTime now : ℤ) (kv : String × Player) : Bool :=
  kv.2.disconnected && decide (now - kv.2.lastActivity > maxInactiveTime)

/-- PhysicsState.cleanupInactivePlayers: collect the ids of players that
are disconnected and inactive past the threshold, remove each, and return
how many ids were collected together with the new state. -/
def cleanupInactivePlayers (st : PhysicsState) (maxInactiveTime now : ℤ) : ℕ × PhysicsState :=
  let playersToRemove := (st.players.filter (inactivePred maxInactiveTime now)).map Prod.fst
  (playersToRemove.length, playersToRemove.foldl removePlayer st)

/-- Per player shape cap configured on the room. -/
def MAX_SHAPES_PER_PLAYER : ℕ := 5

/-- Inbound physics action payload.  Fields the client may omit, or send
with a non numeric type, are Options; the empty string stands for a missing
or falsy string field. -/
structure ActionIn where
  type : String
  shapeId : String
  x : Option ℚ
  y : Option ℚ
  angle : Option ℚ
  velocity : Option Vec
deriving DecidableEq

/-- Outbound action payload: the inbound action spread together with a
server timestamp.  Boundary corrections build it directly. -/
structure ActionOut where
  type : String
  shapeId : Option String
  x : Option ℚ
  y : Option ℚ
  angle : Option ℚ
  velocity : Option Vec
  timestamp : ℤ
deriving DecidableEq

/-- The action object the room broadcasts from handlePhysicsAction:
the inbound action with a timestamp added. -/
def ActionIn.stamped (a : ActionIn) (now : ℤ) : ActionOut :=
  { type := a.type, shapeId := some a.shapeId, x := a.x, y := a.y
    angle := a.angle, velocity := a.velocity, timestamp := now }

/-- Messages the room broadcasts to clients. -/
inductive Broadcast where
  | physicsAction (playerId : String) (shapeId : String) (action : ActionOut)
  | playerRemoved (playerId : String)
  | blockColorChanged (playerId : String) (color : String)
deriving DecidableEq

/-- True for a physics action broadcast naming the given shape id. -/
def Broadcast.namesShape (sid : String) : Broadcast → Bool
  | .physicsAction _ shapeId _ => shapeId == sid
  | _ => false

/-- Mutate the first shape with the given id in a shapes array, as the JS
find-then-mutate idiom does. -/
def updateFirst (shapes : List Shape) (sid : String) (f : Shape → Shape) : List Shape :=
  match shapes with
  | [] => []
  | s :: rest => if s.id == sid then f s :: rest else s :: updateFirst rest sid f

/-- PhysicsRoom.handlePhysicsAction.  The session id has already been
resolved through sessionIdToPlayerId into pidRes (none when the session is
unknown).  Returns the new state and the broadcasts emitted. -/
def handlePhysicsAction (st : PhysicsState) (pidRes : Option String) (a : ActionIn) (now : ℤ) :
    PhysicsState × List Broadcast :=
  if a.type = "" ∨ a.shapeId = "" then (st, []) else
  match pidRes with
  | none => (st, [])
  | some pid =>
    match getPlayer st pid with
    | none => (st, [])
    | some player =>
      match player.shapes.find? (fun s => s.id == a.shapeId) with
      | none =>
        -- ownership check: the shape may exist under another player, in
        -- which case the action is rejected; either way nothing happens
        let belongsToAnotherPlayer :=
          st.players.any (fun kv => kv.1 != pid && kv.2.shapes.any (fun s => s.id == a.shapeId))
        if belongsToAnotherPlayer then (st, []) else (st, [])
      | some _ =>
        if a.type = "position" then
          match a.x, a.y with
          | some px, some py =>
            let st1 := modifyPlayer st pid (fun p =>
              { p with shapes := updateFirst p.shapes a.shapeId (fun s =>
                  let s1 := Shape.setPosition s px py a.angle now
                  let s2 := match a.velocity with
                    | some v => Shape.setVelocity s1 v.x v.y
                    | none => s1
                  { s2 with lastUpdate := now }) })
            let st2 := modifyPlayer st1 pid (fun p => { p with lastActivity := now })
            (st2, [Broadcast.physicsAction pid a.shapeId (a.stamped now)])
          | _, _ => (st, [])
        else if a.type = "impulse" then
          match a.velocity with
          | some v =>
            let st1 := modifyPlayer st pid (fun p =>
              { p with shapes := updateFirst p.shapes a.shapeId (fun s =>
                  { Shape.setVelocity s v.x v.y with lastUpdate := now }) })
            let st2 := modifyPlayer st1 pid (fun p => { p with lastActivity := now })
            (st2, [Broadcast.physicsAction pid a.shapeId (a.stamped now)])
          | none => (st, [])
        else (st, [])

/-- One entry of an inbound shape_update batch; untrusted fields are
Options and the empty string models a missing or falsy id. -/
structure ShapeData where
  id : String
  x : Option ℚ
  y : Option ℚ
  angle : Option ℚ
  velocity : Option Vec
deriving DecidableEq

/-- PhysicsRoom.validateShapeData: id must be a non empty string and the
numeric fields must all be present. -/
def validateShapeData (d : ShapeData) : Bool :=
  d.id != "" && d.x.isSome && d.y.isSome && d.angle.isSome && d.velocity.isSome

/-- Processing of a single entry of a shape_update batch against one
players shapes array: validate the fields, look the shape up among the
senders shapes, and apply the update only when the proposed position is
within the arena expanded by the 200 unit threshold. -/
def applyShapeData (w h : ℚ) (now : ℤ) (shapes : List Shape) (d : ShapeData) : List Shape :=
  if validateShapeData d then
    if shapes.any (fun s => s.id == d.id) then
      let px := d.x.getD 0
      let py := d.y.getD 0
      if -200 ≤ px ∧ px ≤ w + 200 ∧ -200 ≤ py ∧ py ≤ h + 200 then
        updateFirst shapes d.id (fun s =>
          { Shape.setVelocity (Shape.setPosition s px py d.angle now)
              ((d.velocity.getD ⟨0, 0⟩).x) ((d.velocity.getD ⟨0, 0⟩).y) with lastUpdate := now })
      else shapes
    else shapes
  else shapes

/-- PhysicsRoom.handleShapeUpdate: none for msgShapes models a message
whose shapes field is missing or not an array.  Emits no broadcasts. -/
def handleShapeUpdate (st : PhysicsState) (pidRes : Option String)
    (msgShapes : Option (List ShapeData)) (now : ℤ) : PhysicsState :=
  match msgShapes with
  | none => st
  | some datas =>
    match pidRes with
    | none => st
    | some pid =>
      match getPlayer st pid with
      | none => st
      | some player =>
        let newShapes := datas.foldl (applyShapeData st.boundaryWidth st.boundaryHeight now) player.shapes
        modifyPlayer st pid (fun p => { p with shapes := newShapes, lastActivity := now })

/-- PhysicsRoom.handleCreateShape: additional shapes are disabled, so a
player who already owns any shape is refused; otherwise a shape with a
fresh generated id is created.  The handler never broadcasts. -/
def handleCreateShape (st : PhysicsState) (pidRes : Option String)
    (genId : String) (randX : ℚ) (now : ℤ) : PhysicsState × List Broadcast :=
  match pidRes with
  | none => (st, [])
  | some pid =>
    match getPlayer st pid with
    | none => (st, [])
    | some player =>
      if player.shapes.length > 0 then (st, [])
      else ((createShapeForPlayer st pid (some genId) genId randX now).2, [])

/-- Replace or insert a binding in a session map. -/
def setKey (k v : String) (l : List (String × String)) : List (String × String) :=
  if (lookupBy k l).isSome then l.map (fun kv => if kv.1 == k then (k, v) else kv)
  else l ++ [(k, v)]

/-- The non reconnection path of PhysicsRoom.onJoin: create the player
(idempotently), record the session bindings, and create an initial shape
when the player has none. -/
def joinNewPlayer (st : PhysicsState) (s2p p2s : List (String × String))
    (sessionId playerId genId : String) (randX : ℚ) (now : ℤ) :
    PhysicsState × List (String × String) × List (String × String) :=
  let st1 := createPlayer st playerId now
  let s2p1 := setKey sessionId playerId s2p
  let p2s1 := setKey playerId sessionId p2s
  match getPlayer st1 playerId with
  | some pl =>
    if pl.shapes.length = 0 then
      ((createShapeForPlayer st1 playerId none genId randX now).2, s2p1, p2s1)
    else (st1, s2p1, p2s1)
  | none => (st1, s2p1, p2s1)

/-- PhysicsRoom.onJoin.  When the join options carry a playerId and that
player still exists this is a reconnection: the player is marked connected
and the shape set is repaired (one shape is created when there is none,
extras beyond the first are removed).  Otherwise a new player is created
with one initial shape. -/
def onJoin (st : PhysicsState) (s2p p2s : List (String × String)) (sessionId : String)
    (optPlayerId : Option String) (genId : String) (randX : ℚ) (now : ℤ) :
    PhysicsState × List (String × String) × List (String × String) :=
  match optPlayerId with
  | some pid =>
    match getPlayer st pid with
    | some existingPlayer =>
      let st1 := markPlayerConnected st pid true now
      let s2p1 := setKey sessionId pid s2p
      let p2s1 := setKey pid sessionId p2s
      if existingPlayer.shapes.length = 0 then
        ((createShapeForPlayer st1 pid none genId randX now).2, s2p1, p2s1)
      else if existingPlayer.shapes.length > 1 then
        (modifyPlayer st1 pid (fun p => { p with shapes := p.shapes.take 1, lastActivity := now }), s2p1, p2s1)
      else (st1, s2p1, p2s1)
    | none => joinNewPlayer st s2p p2s sessionId pid genId randX now
  | none => joinNewPlayer st s2p p2s sessionId sessionId genId randX now

/-- PhysicsRoom.onLeave: resolve the session, then immediately remove all
of the players shapes and the player itself, drop the session bindings and
broadcast player_removed.  An unknown session is ignored. -/
def onLeave (st : PhysicsState) (s2p p2s : List (String × String)) (sessionId : String) :
    PhysicsState × List (String × String) × List (String × String) × List Broadcast :=
  match lookupBy sessionId s2p with
  | none => (st, s2p, p2s, [])
  | some pid =>
    -- the shape removal loop empties the shapes array before the player
    -- entry itself is deleted, so the net state change is the deletion
    let st1 := match getPlayer st pid with
      | some _ => removePlayer st pid
      | none => st
    (st1, s2p.filter (fun kv => kv.1 != sessionId), p2s.filter (fun kv => kv.1 != pid),
      [Broadcast.playerRemoved pid])

/-- Out of bounds test of the periodic boundary check: outside the arena by
more than the 100 unit margin. -/
def checkShapeOOB (w h : ℚ) (s : Shape) : Bool :=
  decide (s.x < -100) || decide (s.x > w + 100) || decide (s.y < -100) || decide (s.y > h + 100)

/-- Reset applied to an out of bounds shape: reposition into the spawn
band at x = rand times (width - 200) plus 100 and y = height - 50 with the
velocity zeroed; an in bounds shape is untouched. -/
def resetOOBShape (w h r : ℚ) (now : ℤ) (s : Shape) : Shape :=
  if checkShapeOOB w h s then
    Shape.setVelocity (Shape.setPosition s (r * (w - 200) + 100) (h - 50) (some 0) now) 0 0
  else s

/-- The corrective broadcast the boundary check emits for an out of bounds
shape. -/
def resetBroadcast (w h r : ℚ) (now : ℤ) (pid : String) (s : Shape) : Option Broadcast :=
  if checkShapeOOB w h s then
    some (Broadcast.physicsAction pid s.id
      { type := "position", shapeId := none, x := some (r * (w - 200) + 100), y := some (h - 50)
        angle := some 0, velocity := some ⟨0, 0⟩, timestamp := now })
  else none

/-- PhysicsRoom.checkAndResetOutOfBoundsShapes: every shape of every player
is tested, out of bounds shapes are repositioned, and one corrective
broadcast is emitted per reset shape.  The per shape random draw is the
value of rand at the shapes id. -/
def checkAndResetOutOfBoundsShapes (st : PhysicsState) (rand : String → ℚ) (now : ℤ) :
    PhysicsState × List Broadcast :=
  ({ st with players := st.players.map (fun kv =>
      (kv.1, { kv.2 with shapes := kv.2.shapes.map (fun s =>
        resetOOBShape st.boundaryWidth st.boundaryHeight (rand s.id) now s) })) },
   st.players.foldr (fun kv acc =>
      kv.2.shapes.filterMap (fun s =>
        resetBroadcast st.boundaryWidth st.boundaryHeight (rand s.id) now kv.1 s) ++ acc) [])

/-- PhysicsRoom.update (the ~60Hz simulation tick): stamps the server time
and, on the ticks the rough once per ten seconds gate lets through, runs
the inactivity sweep with a 300000 ms threshold.  The tick never
broadcasts anything. -/
def update (st : PhysicsState) (now : ℤ) : PhysicsState × List Broadcast :=
  let st1 := { st with serverTime := now }
  if now % 10000 < 16 then
    ((cleanupInactivePlayers st1 300000 now).2, [])
  else (st1, [])

/-!
Embedding of the stand-alone stateValidator module.  Its soft clamp divides
a displacement by its euclidean norm, so this part of the model lives over
the real numbers; the claims about it are stated up to exact real
arithmetic, which is what the specification means by within floating point
epsilon.
-/

namespace SV

/-- MAX_VELOCITY from stateValidator. -/
noncomputable def MAX_VELOCITY : ℝ := 50

/-- MAX_POSITION_CHANGE from stateValidator. -/
noncomputable def MAX_POSITION_CHANGE : ℝ := 100

/-- Velocity vector of a submitted shape. -/
structure SVVec where
  x : ℝ
  y : ℝ

/-- A shape object as the validator sees it: the fields it reads or writes.
Extra fields of the JS object are spread through unchanged and carry no
information for the claims. -/
structure SVShape where
  id : String
  x : ℝ
  y : ℝ
  velocity : SVVec

/-- The Math.min / Math.max clamp of one velocity component. -/
noncomputable def clampComponent (v : ℝ) : ℝ :=
  min (max v (-MAX_VELOCITY)) MAX_VELOCITY

section
open scoped Classical

/-- Validation of a single shape of the batch, given the elapsed seconds
deltaTime and the previously stored shapes of this player (none when the
player has no stored state).  A shape with no previous state is returned
unchanged; otherwise the velocity is clamped componentwise and a
displacement larger than MAX_POSITION_CHANGE times deltaTime is scaled
back onto that radius. -/
noncomputable def validateShape (deltaTime : ℝ) (prevShapes : Option (List SVShape))
    (shape : SVShape) : SVShape :=
  match prevShapes.bind (fun l => l.find? (fun s => s.id == shape.id)) with
  | none => shape
  | some prevShape =>
    let velocity : SVVec := ⟨clampComponent shape.velocity.x, clampComponent shape.velocity.y⟩
    let maxDelta : ℝ := MAX_POSITION_CHANGE * deltaTime
    let dx := shape.x - prevShape.x
    let dy := shape.y - prevShape.y
    let distance := Real.sqrt (dx * dx + dy * dy)
    if distance > maxDelta then
      { shape with
        x := prevShape.x + dx * (maxDelta / distance)
        y := prevShape.y + dy * (maxDelta / distance)
        velocity := velocity }
    else
      { shape with velocity := velocity }

end

/-- StateValidator.validateUpdate restricted to one call: every shape of
the submitted batch is validated against the stored previous state. -/
noncomputable def validateUpdate (deltaTime : ℝ) (prevShapes : Option (List SVShape))
    (shapes : List SVShape) : List SVShape :=
  shapes.map (validateShape deltaTime prevShapes)

end SV

/-- Number of shapes in the whole store satisfying a predicate. -/
def countShapesWith (st : PhysicsState) (q : Shape → Bool) : ℕ :=
  st.players.foldr (fun kv acc => kv.2.shapes.countP q + acc) 0

/-- Total number of shapes in the store. -/
def totalShapes (st : PhysicsState) : ℕ :=
  st.players.foldr (fun kv acc => kv.2.shapes.length + acc) 0

/-- Membership of a shape id somewhere in the store. -/
def getShape (st : PhysicsState) (pid sid : String) : Option Shape :=
  (getPlayer st pid).bind (fun p => p.shapes.find? (fun s => s.id == sid))

/-!  Concrete fixtures used by witnesses and counterexamples. -/

/-- A shape at a benign position. -/
def shapeFix (sid : String) (x y : ℚ) (vx vy : ℚ) : Shape :=
  { id := sid, x := x, y := y, angle := 0, velocity := ⟨vx, vy⟩, lastUpdate := 0 }

/-- A connected player owning the given shapes. -/
def playerFix (pid : String) (shapes : List Shape) : Player :=
  { id := pid, shapes := shapes, disconnected := false, lastActivity := 0 }

/-- Store with players A and B, each owning one shape, in the standard
2400 by 1800 arena. -/
def stTwoPlayers : PhysicsState :=
  { players :=
      [("A", playerFix "A" [shapeFix "sa" 10 20 0 0]),
       ("B", playerFix "B" [shapeFix "sb" 30 40 0 0])]
    serverTime := 0, boundaryWidth := 2400, boundaryHeight := 1800 }

/-- Action from A targeting the shape owned by B. -/
def actCross : ActionIn :=
  { type := "position", shapeId := "sb", x := some 50, y := some 60, angle := some 0, velocity := none }

/-- Store with one player p owning one shape s1. -/
def stSolo : PhysicsState :=
  { players := [("p", playerFix "p" [shapeFix "s1" 10 20 1 2])]
    serverTime := 0, boundaryWidth := 2400, boundaryHeight := 1800 }

/-- Impulse action with a velocity far beyond the 50 unit bound. -/
def actBigImpulse : ActionIn :=
  { type := "impulse", shapeId := "s1", x := none, y := none, angle := none, velocity := some ⟨100, 0⟩ }

/-- Position action far outside the arena plus its 200 unit margin. -/
def actFarPosition : ActionIn :=
  { type := "position", shapeId := "s1", x := some 10000, y := some 0, angle := some 0, velocity := none }

/-- Store with one player whose shape sits at x = -150, outside the arena
by more than the 100 unit margin. -/
def stOOB : PhysicsState :=
  { players := [("p", playerFix "p" [shapeFix "s" (-150) 500 3 4])]
    serverTime := 0, boundaryWidth := 2400, boundaryHeight := 1800 }

/-- A shape_update entry proposing a position outside the arena plus its
200 unit threshold. -/
def dataFar : ShapeData :=
  { id := "s1", x := some (-300), y := some 20, angle := some 1, velocity := some ⟨1, 1⟩ }

/-- Store with one player at the five shape cap. -/
def stCapped : PhysicsState :=
  { players := [("p", playerFix "p"
      [shapeFix "c1" 1 1 0 0, shapeFix "c2" 2 2 0 0, shapeFix "c3" 3 3 0 0,
       shapeFix "c4" 4 4 0 0, shapeFix "c5" 5 5 0 0])]
    serverTime := 0, boundaryWidth := 2400, boundaryHeight := 1800 }

/-- Store with one disconnected player q whose last activity is far in the
past, and one connected player r. -/
def stStale : PhysicsState :=
  { players :=
      [("q", { id := "q", shapes := [shapeFix "sq" 1 1 0 0], disconnected := true, lastActivity := 0 }),
       ("r", { id := "r", shapes := [], disconnected := false, lastActivity := 0 })]
    serverTime := 0, boundaryWidth := 2400, boundaryHeight := 1800 }

/-- Previously stored validator shape at the origin. -/
noncomputable def svPrevFix : SV.SVShape := { id := "a", x := 0, y := 0, velocity := ⟨0, 0⟩ }

/-- Submitted validator shape 500 units away from its stored position,
with an oversized velocity. -/
noncomputable def svFarFix : SV.SVShape := { id := "a", x := 300, y := 400, velocity := ⟨70, -80⟩ }

/-- Submitted validator shape with no stored state and an oversized
velocity. -/
noncomputable def svNewFix : SV.SVShape := { id := "b", x := 7, y := 8, velocity := ⟨100, -200⟩ }

/-!  Helper lemmas about the association list store. -/

theorem lookupBy_map_modify {α : Type} (k : String) (l : List (String × α)) (f : α → α) :
    lookupBy k (l.map (fun kv => if kv.1 == k then (kv.1, f kv.2) else kv))
      = (lookupBy k l).map f := by
  induction l with
  | nil => rfl
  | cons kv rest ih =>
    by_cases h : kv.1 == k
    · simp [lookupBy, List.find?, h]
    · simpa [lookupBy, List.find?, h] using ih

theorem lookupBy_filter_self {α : Type} (k : String) (l : List (String × α)) :
    lookupBy k (l.filter (fun kv => kv.1 != k)) = none := by
  have hf : (l.filter (fun kv => kv.1 != k)).find? (fun kv => kv.1 == k) = none := by
    refine List.find?_eq_none.mpr ?_
    intro kv hkv
    rcases List.mem_filter.mp hkv with ⟨-, hne⟩
    simpa using hne
  simp [lookupBy, hf]

theorem lookupBy_append_of_none {α : Type} (k : String) (l l2 : List (String × α))
    (h : lookupBy k l = none) : lookupBy k (l ++ l2) = lookupBy k l2 := by
  have hf : l.find? (fun kv => kv.1 == k) = none := by
    cases hfind : l.find? (fun kv => kv.1 == k) with
    | none => rfl
    | some kv => simp [lookupBy, hfind] at h
  simp [lookupBy, List.find?_append, hf]

theorem getPlayer_mem (st : PhysicsState) (pid : String) (p : Player)
    (h : getPlayer st pid = some p) : (pid, p) ∈ st.players := by
  unfold getPlayer lookupBy at h
  cases hfind : st.players.find? (fun kv => kv.1 == pid) with
  | none => rw [hfind] at h; simp at h
  | some kv =>
    rw [hfind] at h
    simp only [Option.map_some'] at h
    have hp : kv.2 = p := by injection h
    have hmem := List.mem_of_find?_eq_some hfind
    have hpred := List.find?_some hfind
    have hkey : kv.1 = pid := by simpa using hpred
    have hkv : (pid, p) = kv := by
      cases kv with
      | mk a b => simp_all
    rw [hkv]; exact hmem

theorem foldl_removePlayer_players (ids : List String) (st : PhysicsState) :
    ids.foldl removePlayer st
      = { st with players := st.players.filter (fun kv => !(ids.contains kv.1)) } := by
  induction ids generalizing st with
  | nil =>
    cases st
    simp [List.filter_true]
  | cons id rest ih =>
    have step : (id :: rest).foldl removePlayer st = rest.foldl removePlayer (removePlayer st id) := rfl
    rw [step, ih]
    cases st
    simp only [removePlayer, List.filter_filter]
    congr 1
    refine List.filter_congr ?_
    intro kv _
    by_cases h : kv.1 = id
    · simp [h, List.contains_cons]
    · simp [h, List.contains_cons, bne, Bool.and_comm]

theorem filter_length_compl {α : Type} (p : α → Bool) (l : List α) :
    (l.filter p).length + (l.filter (fun a => !(p a))).length = l.length := by
  induction l with
  | nil => rfl
  | cons a rest ih =>
    cases h : p a <;> simp [List.filter, h, ← ih] <;> omega

theorem cleanup_players_eq (st : PhysicsState) (m now : ℤ)
    (hnodup : (st.players.map Prod.fst).Nodup) :
    (cleanupInactivePlayers st m now).2.players
      = st.players.filter (fun kv => !(inactivePred m now kv)) := by
  unfold cleanupInactivePlayers
  dsimp only
  rw [foldl_removePlayer_players]
  refine List.filter_congr ?_
  intro kv hkv
  congr 1
  by_cases hpred : inactivePred m now kv = true
  · have hmem' : kv.1 ∈ (st.players.filter (inactivePred m now)).map Prod.fst :=
      List.mem_map_of_mem _ (List.mem_filter.mpr ⟨hkv, hpred⟩)
    simp [List.elem_eq_mem, hmem', hpred]
  · have hnotmem : kv.1 ∉ (st.players.filter (inactivePred m now)).map Prod.fst := by
      intro hmem
      rcases List.mem_map.mp hmem with ⟨kv', hkv', hfst⟩
      rcases List.mem_filter.mp hkv' with ⟨hkvmem', hpred'⟩
      have hkk : kv' = kv := List.inj_on_of_nodup_map hnodup hkvmem' hkv hfst
      exact hpred (hkk ▸ hpred')
    have hpred' : inactivePred m now kv = false := by
      cases hb : inactivePred m now kv
      · rfl
      · exact absurd hb hpred
    simp [List.elem_eq_mem, hnotmem, hpred']

/-- C10: the inactivity sweep removes exactly the players that are both
disconnected and inactive past the threshold (a connected player is never
removed), and the returned count is the number of players removed. -/
theorem cleanupInactivePlayers_correct (st : PhysicsState) (maxInactiveTime now : ℤ)
    (hnodup : (st.players.map Prod.fst).Nodup) :
    (∀ pid p, (pid, p) ∈ st.players → p.disconnected = false →
        (pid, p) ∈ (cleanupInactivePlayers st maxInactiveTime now).2.players)
    ∧ (∀ pid p, (pid, p) ∈ st.players →
        (pid, p) ∉ (cleanupInactivePlayers st maxInactiveTime now).2.players →
        p.disconnected = true ∧ now - p.lastActivity > maxInactiveTime)
    ∧ (cleanupInactivePlayers st maxInactiveTime now).1
        = st.players.length - (cleanupInactivePlayers st maxInactiveTime now).2.players.length := by
  have heq := cleanup_players_eq st maxInactiveTime now hnodup
  refine ⟨?_, ?_, ?_⟩
  · intro pid p hmem hconn
    rw [heq]
    refine List.mem_filter.mpr ⟨hmem, ?_⟩
    simp [inactivePred, hconn]
  · intro pid p hmem hgone
    rw [heq] at hgone
    by_cases hpred : inactivePred maxInactiveTime now (pid, p) = true
    · have hab : p.disconnected = true ∧ now - p.lastActivity > maxInactiveTime := by
        simpa [inactivePred] using hpred
      exact hab
    · exact absurd (List.mem_filter.mpr ⟨hmem, by simp [hpred]⟩) hgone
  · have hlen : (cleanupInactivePlayers st maxInactiveTime now).1
        = (st.players.filter (inactivePred maxInactiveTime now)).length := by
      simp [cleanupInactivePlayers]
    have hcompl := filter_length_compl (inactivePred maxInactiveTime now) st.players
    rw [hlen, heq]
    omega

theorem lookupBy_none_filter {α : Type} (k : String) (l : List (String × α)) (q : String × α → Bool)
    (h : lookupBy k l = none) : lookupBy k (l.filter q) = none := by
  have hf : l.find? (fun kv => kv.1 == k) = none := by
    cases hfind : l.find? (fun kv => kv.1 == k) with
    | none => rfl
    | some kv => simp [lookupBy, hfind] at h
  have hall := List.find?_eq_none.mp hf
  have hf2 : (l.filter q).find? (fun kv => kv.1 == k) = none :=
    List.find?_eq_none.mpr (fun kv hkv => hall kv (List.mem_filter.mp hkv).1)
  simp [lookupBy, hf2]

theorem getPlayer_cleanup_none (st : PhysicsState) (m now : ℤ) (pid : String) (p : Player)
    (hp : getPlayer st pid = some p)
    (hpred : inactivePred m now (pid, p) = true) :
    getPlayer (cleanupInactivePlayers st m now).2 pid = none := by
  have hpmem : (pid, p) ∈ st.players := getPlayer_mem st pid p hp
  have hidmem : pid ∈ (st.players.filter (inactivePred m now)).map Prod.fst :=
    List.mem_map_of_mem _ (List.mem_filter.mpr ⟨hpmem, hpred⟩)
  unfold cleanupInactivePlayers
  dsimp only
  rw [foldl_removePlayer_players]
  have hf : (st.players.filter
      (fun kv => !(((st.players.filter (inactivePred m now)).map Prod.fst).contains kv.1))).find?
        (fun kv => kv.1 == pid) = none := by
    refine List.find?_eq_none.mpr ?_
    intro kv hkv
    rcases List.mem_filter.mp hkv with ⟨-, hnotin⟩
    intro hbeq
    have hkey : kv.1 = pid := by simpa using hbeq
    rw [hkey] at hnotin
    simp [List.elem_eq_mem, hidmem] at hnotin
  simp only [getPlayer, lookupBy]
  rw [hf]
  rfl

theorem update_no_broadcast (st : PhysicsState) (now : ℤ) : (update st now).2 = [] := by
  unfold update
  dsimp only
  split <;> rfl

/-- C8, amended: a disconnected player whose inactivity exceeds the
threshold is removed by the sweeping simulation tick, and once removed
stays removed (so the transition happens only once), but the sweep emits
no broadcast at all; the only player_removed broadcast comes from the
immediate-removal onLeave path, which emits exactly one. -/
theorem update_removed_without_broadcast (st : PhysicsState) (pid : String) (p : Player) (now : ℤ)
    (hp : getPlayer st pid = some p)
    (hdisc : p.disconnected = true)
    (hstale : now - p.lastActivity > 300000)
    (hgate : now % 10000 < 16) :
    getPlayer (update st now).1 pid = none
    ∧ (update st now).2 = []
    ∧ (∀ now2, getPlayer (update (update st now).1 now2).1 pid = none)
    ∧ (∀ (st2 : PhysicsState) (s2p p2s : List (String × String)) (sid pid2 : String),
        lookupBy sid s2p = some pid2 →
        (onLeave st2 s2p p2s sid).2.2.2 = [Broadcast.playerRemoved pid2]) := by
  have hst1 : getPlayer { st with serverTime := now } pid = some p := hp
  have hpred : inactivePred 300000 now (pid, p) = true := by
    simp [inactivePred, hdisc, hstale]
  have h1 : getPlayer (update st now).1 pid = none := by
    unfold update
    dsimp only
    rw [if_pos hgate]
    exact getPlayer_cleanup_none _ 300000 now pid p hst1 hpred
  have habs : ∀ (st' : PhysicsState) (now2 : ℤ),
      getPlayer st' pid = none → getPlayer (update st' now2).1 pid = none := by
    intro st' now2 h0
    unfold update
    dsimp only
    split
    · unfold cleanupInactivePlayers
      dsimp only
      rw [foldl_removePlayer_players]
      exact lookupBy_none_filter pid _ _ h0
    · exact h0
  refine ⟨h1, update_no_broadcast st now, fun now2 => habs _ now2 h1, ?_⟩
  intro st2 s2p p2s sid pid2 hsid
  unfold onLeave
  rw [hsid]

/-- Witness for the amended C8 at a concrete store. -/
theorem update_removed_without_broadcast_witness :
    getPlayer (update stStale 400000).1 "q" = none
    ∧ (update stStale 400000).2 = []
    ∧ getPlayer (update (update stStale 400000).1 777).1 "q" = none
    ∧ (onLeave stSolo [("sess1", "p")] [("p", "sess1")] "sess1").2.2.2
        = [Broadcast.playerRemoved "p"] := by
  have h := update_removed_without_broadcast stStale "q"
    { id := "q", shapes := [shapeFix "sq" 1 1 0 0], disconnected := true, lastActivity := 0 }
    400000 (by rfl) (by rfl) (by decide) (by decide)
  exact ⟨h.1, h.2.1, h.2.2.1 777, h.2.2.2 stSolo [("sess1", "p")] [("p", "sess1")] "sess1" "p" (by rfl)⟩

/-- Counterexample for C8 as stated: on the periodic sweep path the stale
disconnected player q is removed, yet the tick emits no broadcast at all,
so no player_removed broadcast accompanies this removal. -/
theorem update_sweep_emits_no_playerRemoved_ce :
    (getPlayer stStale "q").isSome = true
    ∧ getPlayer (update stStale 400000).1 "q" = none
    ∧ (update stStale 400000).2 = [] := by
  refine ⟨by decide, ?_, by decide⟩
  decide

/-- C1: a physics action sent by player A naming a shape owned by a
different player B leaves the entity store unchanged and emits no
broadcast. -/
theorem handlePhysicsAction_ownership_isolation (st : PhysicsState) (pidA pidB : String)
    (pA pB : Player) (a : ActionIn) (now : ℤ)
    (hA : getPlayer st pidA = some pA)
    (hAB : pidA ≠ pidB)
    (hB : (pidB, pB) ∈ st.players)
    (hOwnB : ∃ s ∈ pB.shapes, s.id = a.shapeId)
    (hNotA : ∀ s ∈ pA.shapes, s.id ≠ a.shapeId) :
    handlePhysicsAction st (some pidA) a now = (st, []) := by
  unfold handlePhysicsAction
  by_cases hempty : a.type = "" ∨ a.shapeId = ""
  · rw [if_pos hempty]
  · rw [if_neg hempty]
    dsimp only
    rw [hA]
    dsimp only
    have hfind : pA.shapes.find? (fun s => s.id == a.shapeId) = none :=
      List.find?_eq_none.mpr (fun s hs => by simpa using hNotA s hs)
    rw [hfind]
    dsimp only
    split <;> rfl

/-- Witness for C1: player A targets the shape sb owned by player B. -/
theorem handlePhysicsAction_ownership_isolation_witness :
    handlePhysicsAction stTwoPlayers (some "A") actCross 5 = (stTwoPlayers, []) :=
  handlePhysicsAction_ownership_isolation stTwoPlayers "A" "B"
    (playerFix "A" [shapeFix "sa" 10 20 0 0]) (playerFix "B" [shapeFix "sb" 30 40 0 0])
    actCross 5 (by rfl) (by decide) (by decide) (by decide) (by decide)

/-- C7: a create_shape request from a player already holding
MAX_SHAPES_PER_PLAYER shapes creates nothing and broadcasts nothing, and
shape creation likewise fails when the requesting player is not in the
store. -/
theorem handleCreateShape_at_cap_or_missing (st : PhysicsState) (pid genId : String)
    (randX : ℚ) (now : ℤ) :
    (∀ player, getPlayer st pid = some player →
        player.shapes.length = MAX_SHAPES_PER_PLAYER →
        handleCreateShape st (some pid) genId randX now = (st, []))
    ∧ (getPlayer st pid = none →
        handleCreateShape st (some pid) genId randX now = (st, [])
        ∧ createShapeForPlayer st pid none genId randX now = (none, st)) := by
  constructor
  · intro player hp hcap
    unfold handleCreateShape
    dsimp only
    rw [hp]
    dsimp only
    rw [if_pos]
    rw [hcap]
    decide
  · intro hnone
    refine ⟨?_, ?_⟩
    · unfold handleCreateShape
      dsimp only
      rw [hnone]
    · unfold createShapeForPlayer
      rw [hnone]

/-- Witness for C7: the capped player p and the missing player ghost. -/
theorem handleCreateShape_at_cap_or_missing_witness :
    handleCreateShape stCapped (some "p") "newId" 0 9 = (stCapped, [])
    ∧ handleCreateShape stCapped (some "ghost") "newId" 0 9 = (stCapped, [])
    ∧ createShapeForPlayer stCapped "ghost" none "newId" 0 9 = (none, stCapped) := by
  have h1 := (handleCreateShape_at_cap_or_missing stCapped "p" "newId" 0 9).1
    (playerFix "p"
      [shapeFix "c1" 1 1 0 0, shapeFix "c2" 2 2 0 0, shapeFix "c3" 3 3 0 0,
       shapeFix "c4" 4 4 0 0, shapeFix "c5" 5 5 0 0]) (by rfl) (by rfl)
  have h2 := (handleCreateShape_at_cap_or_missing stCapped "ghost" "newId" 0 9).2 (by rfl)
  exact ⟨h1, h2.1, h2.2⟩

theorem getPlayer_modifyPlayer (st : PhysicsState) (pid : String) (f : Player → Player) :
    getPlayer (modifyPlayer st pid f) pid = (getPlayer st pid).map f :=
  lookupBy_map_modify pid st.players f

/-- C6, amended: the hard out of bounds rejection holds on the
shape_update path: an entry proposing a position outside the arena
expanded by the 200 unit threshold mutates no shape.  (The physics_action
position path performs no such check; see the counterexample.) -/
theorem handleShapeUpdate_rejects_out_of_bounds (st : PhysicsState) (pid : String)
    (player : Player) (d : ShapeData) (now : ℤ) (px py : ℚ)
    (hp : getPlayer st pid = some player)
    (hx : d.x = some px) (hy : d.y = some py)
    (hout : px < -200 ∨ px > st.boundaryWidth + 200 ∨ py < -200 ∨ py > st.boundaryHeight + 200) :
    applyShapeData st.boundaryWidth st.boundaryHeight now player.shapes d = player.shapes
    ∧ (getPlayer (handleShapeUpdate st (some pid) (some [d]) now) pid).map Player.shapes
        = some player.shapes := by
  have hcond : ¬(-200 ≤ px ∧ px ≤ st.boundaryWidth + 200
      ∧ -200 ≤ py ∧ py ≤ st.boundaryHeight + 200) := by
    rcases hout with h | h | h | h
    · exact fun hc => absurd hc.1 (not_le.mpr h)
    · exact fun hc => absurd hc.2.1 (not_le.mpr h)
    · exact fun hc => absurd hc.2.2.1 (not_le.mpr h)
    · exact fun hc => absurd hc.2.2.2 (not_le.mpr h)
  have hcore : applyShapeData st.boundaryWidth st.boundaryHeight now player.shapes d
      = player.shapes := by
    by_cases hval : validateShapeData d = true
    · by_cases hany : player.shapes.any (fun s => s.id == d.id) = true
      · simp [applyShapeData, hval, hany, hx, hy, hcond]
      · simp [applyShapeData, hval, hany]
    · simp [applyShapeData, hval]
  refine ⟨hcore, ?_⟩
  unfold handleShapeUpdate
  dsimp only
  rw [hp]
  dsimp only
  have hfold : [d].foldl (applyShapeData st.boundaryWidth st.boundaryHeight now) player.shapes
      = player.shapes := by
    simpa using hcore
  rw [hfold, getPlayer_modifyPlayer, hp]
  rfl

/-- Witness for the amended C6: a shape_update entry at x = -300 against
the solo store leaves the single shape untouched. -/
theorem handleShapeUpdate_rejects_out_of_bounds_witness :
    applyShapeData stSolo.boundaryWidth stSolo.boundaryHeight 3 [shapeFix "s1" 10 20 1 2] dataFar
      = [shapeFix "s1" 10 20 1 2]
    ∧ (getPlayer (handleShapeUpdate stSolo (some "p") (some [dataFar]) 3) "p").map Player.shapes
      = some [shapeFix "s1" 10 20 1 2] :=
  handleShapeUpdate_rejects_out_of_bounds stSolo "p" (playerFix "p" [shapeFix "s1" 10 20 1 2])
    dataFar 3 (-300) 20 (by rfl) (by rfl) (by rfl) (Or.inl (by norm_num))

/-- Counterexample for C6 as stated: a physics_action of type position at
x = 10000, far beyond the arena plus the 200 unit margin, is accepted and
mutates the targeted shape. -/
theorem handlePhysicsAction_accepts_out_of_bounds_ce :
    (getShape (handlePhysicsAction stSolo (some "p") actFarPosition 7).1 "p" "s1").map Shape.x
      = some 10000
    ∧ ¬((10000 : ℚ) ≤ stSolo.boundaryWidth + 200)
    ∧ (getShape stSolo "p" "s1").map Shape.x = some 10 := by
  refine ⟨by decide, ?_, by decide⟩
  norm_num [stSolo]

/-- C4, amended: velocity components are clamped into the -50 to 50 band
only by the stand-alone StateValidator, and there only for shapes that
have previously stored state; the rooms physics_action handler stores the
proposed velocity verbatim (see the counterexample). -/
theorem validateShape_clamps_velocity (dt : ℝ) (prevList : List SV.SVShape)
    (shape prevShape : SV.SVShape)
    (hfind : prevList.find? (fun s => s.id == shape.id) = some prevShape) :
    -50 ≤ (SV.validateShape dt (some prevList) shape).velocity.x
    ∧ (SV.validateShape dt (some prevList) shape).velocity.x ≤ 50
    ∧ -50 ≤ (SV.validateShape dt (some prevList) shape).velocity.y
    ∧ (SV.validateShape dt (some prevList) shape).velocity.y ≤ 50 := by
  have hclamp : ∀ v : ℝ, -50 ≤ SV.clampComponent v ∧ SV.clampComponent v ≤ 50 := by
    intro v
    unfold SV.clampComponent SV.MAX_VELOCITY
    exact ⟨le_min (le_max_right v (-50)) (by norm_num), min_le_right _ _⟩
  unfold SV.validateShape
  rw [show (some prevList).bind (fun l => l.find? (fun s => s.id == shape.id))
      = some prevShape from hfind]
  dsimp only
  split
  · exact ⟨(hclamp _).1, (hclamp _).2, (hclamp _).1, (hclamp _).2⟩
  · exact ⟨(hclamp _).1, (hclamp _).2, (hclamp _).1, (hclamp _).2⟩

/-- Witness for the amended C4: the far submitted shape with velocity
(70, -80) gets its stored velocity clamped into the band. -/
theorem validateShape_clamps_velocity_witness :
    -50 ≤ (SV.validateShape 1 (some [svPrevFix]) svFarFix).velocity.x
    ∧ (SV.validateShape 1 (some [svPrevFix]) svFarFix).velocity.x ≤ 50
    ∧ -50 ≤ (SV.validateShape 1 (some [svPrevFix]) svFarFix).velocity.y
    ∧ (SV.validateShape 1 (some [svPrevFix]) svFarFix).velocity.y ≤ 50 :=
  validateShape_clamps_velocity 1 [svPrevFix] svFarFix svPrevFix (by rfl)

/-- Counterexample for C4 as stated: an impulse with velocity (100, 0) is
stored verbatim in server state, outside the -50 to 50 band. -/
theorem handlePhysicsAction_impulse_unclamped_ce :
    (getShape (handlePhysicsAction stSolo (some "p") actBigImpulse 7).1 "p" "s1").map
        (fun s => s.velocity.x) = some 100
    ∧ ¬((100 : ℚ) ≤ 50) :=
  ⟨by decide, by norm_num⟩

/-- C9: a submitted shape whose id has no previously stored state for the
player is returned verbatim by the validator: position and velocity are
accepted as sent, with no clamp of any kind. -/
theorem validateUpdate_new_shape_verbatim (dt : ℝ) (prevShapes : Option (List SV.SVShape))
    (shapes : List SV.SVShape) (shape : SV.SVShape)
    (hmem : shape ∈ shapes)
    (hfind : prevShapes.bind (fun l => l.find? (fun s => s.id == shape.id)) = none) :
    SV.validateShape dt prevShapes shape = shape
    ∧ shape ∈ SV.validateUpdate dt prevShapes shapes := by
  have h1 : SV.validateShape dt prevShapes shape = shape := by
    unfold SV.validateShape
    rw [hfind]
  refine ⟨h1, ?_⟩
  unfold SV.validateUpdate
  have h2 := List.mem_map_of_mem (SV.validateShape dt prevShapes) hmem
  rwa [h1] at h2

/-- Witness for C9: the shape with fresh id b and velocity (100, -200) is
passed through unchanged even though its velocity exceeds the bound. -/
theorem validateUpdate_new_shape_verbatim_witness :
    SV.validateShape 1 (some [svPrevFix]) svNewFix = svNewFix
    ∧ svNewFix ∈ SV.validateUpdate 1 (some [svPrevFix]) [svNewFix] :=
  validateUpdate_new_shape_verbatim 1 (some [svPrevFix]) [svNewFix] svNewFix
    (List.mem_singleton.mpr rfl) (by rfl)

/-- C3: the displacement soft clamp.  With previous accepted position P0,
proposed position P1 and rate 100, when the proposed displacement D
exceeds 100 times dt the accepted position lies on the segment from P0 to
P1 at distance exactly 100 times dt from P0; otherwise the proposed
position is accepted unchanged. -/
theorem validateShape_soft_clamp (dt : ℝ) (prevList : List SV.SVShape)
    (shape prevShape out : SV.SVShape) (D : ℝ)
    (hdt : 0 ≤ dt)
    (hfind : prevList.find? (fun s => s.id == shape.id) = some prevShape)
    (hout : out = SV.validateShape dt (some prevList) shape)
    (hD : D = Real.sqrt ((shape.x - prevShape.x) * (shape.x - prevShape.x)
        + (shape.y - prevShape.y) * (shape.y - prevShape.y))) :
    (D > 100 * dt →
      ∃ t : ℝ, 0 ≤ t ∧ t ≤ 1
        ∧ out.x = prevShape.x + t * (shape.x - prevShape.x)
        ∧ out.y = prevShape.y + t * (shape.y - prevShape.y)
        ∧ Real.sqrt ((out.x - prevShape.x) * (out.x - prevShape.x)
            + (out.y - prevShape.y) * (out.y - prevShape.y)) = 100 * dt)
    ∧ (¬(D > 100 * dt) → out.x = shape.x ∧ out.y = shape.y) := by
  subst hout
  subst hD
  unfold SV.validateShape
  rw [show (some prevList).bind (fun l => l.find? (fun s => s.id == shape.id))
      = some prevShape from hfind]
  simp only [SV.MAX_POSITION_CHANGE]
  split_ifs with hgt
  · refine ⟨fun _ => ?_, fun hle => absurd hgt hle⟩
    set dx := shape.x - prevShape.x with hdx
    set dy := shape.y - prevShape.y with hdy
    set D := Real.sqrt (dx * dx + dy * dy) with hDdef
    have hD0 : 0 < D := lt_of_le_of_lt (mul_nonneg (by norm_num) hdt) hgt
    refine ⟨100 * dt / D, ?_, ?_, ?_, ?_, ?_⟩
    · exact div_nonneg (mul_nonneg (by norm_num) hdt) hD0.le
    · exact (div_le_one hD0).mpr hgt.le
    · dsimp only
      ring
    · dsimp only
      ring
    · dsimp only
      have hx1 : prevShape.x + dx * (100 * dt / D) - prevShape.x = dx * (100 * dt / D) := by
        ring
      have hy1 : prevShape.y + dy * (100 * dt / D) - prevShape.y = dy * (100 * dt / D) := by
        ring
      rw [hx1, hy1]
      have hsplit : dx * (100 * dt / D) * (dx * (100 * dt / D))
          + dy * (100 * dt / D) * (dy * (100 * dt / D))
          = (100 * dt / D) * (100 * dt / D) * (dx * dx + dy * dy) := by
        ring
      rw [hsplit]
      have ht0 : 0 ≤ 100 * dt / D := div_nonneg (mul_nonneg (by norm_num) hdt) hD0.le
      rw [Real.sqrt_mul (mul_self_nonneg (100 * dt / D)) (dx * dx + dy * dy),
        Real.sqrt_mul_self ht0, ← hDdef]
      exact div_mul_cancel₀ (100 * dt) (ne_of_gt hD0)
  · exact ⟨fun h => absurd h hgt, fun _ => ⟨rfl, rfl⟩⟩

/-- Witness for C3: previous position the origin, proposed position
(300, 400), dt one second: the displacement 500 exceeds the budget 100 and
the accepted position is clamped onto the segment at distance 100. -/
theorem validateShape_soft_clamp_witness :
    ∃ t : ℝ, 0 ≤ t ∧ t ≤ 1
      ∧ (SV.validateShape 1 (some [svPrevFix]) svFarFix).x
          = svPrevFix.x + t * (svFarFix.x - svPrevFix.x)
      ∧ (SV.validateShape 1 (some [svPrevFix]) svFarFix).y
          = svPrevFix.y + t * (svFarFix.y - svPrevFix.y)
      ∧ Real.sqrt (((SV.validateShape 1 (some [svPrevFix]) svFarFix).x - svPrevFix.x)
            * ((SV.validateShape 1 (some [svPrevFix]) svFarFix).x - svPrevFix.x)
          + ((SV.validateShape 1 (some [svPrevFix]) svFarFix).y - svPrevFix.y)
            * ((SV.validateShape 1 (some [svPrevFix]) svFarFix).y - svPrevFix.y)) = 100 * 1 := by
  have hsq : Real.sqrt ((svFarFix.x - svPrevFix.x) * (svFarFix.x - svPrevFix.x)
      + (svFarFix.y - svPrevFix.y) * (svFarFix.y - svPrevFix.y)) = 500 := by
    have hinner : (svFarFix.x - svPrevFix.x) * (svFarFix.x - svPrevFix.x)
        + (svFarFix.y - svPrevFix.y) * (svFarFix.y - svPrevFix.y) = 500 ^ 2 := by
      simp only [svFarFix, svPrevFix]
      norm_num
    rw [hinner]
    exact Real.sqrt_sq (by norm_num)
  have h := validateShape_soft_clamp 1 [svPrevFix] svFarFix svPrevFix
    (SV.validateShape 1 (some [svPrevFix]) svFarFix) 500
    (by norm_num) (by rfl) rfl hsq.symm
  exact h.1 (by norm_num)

/-- C2, amended: a disconnect immediately removes the player and all of
their shapes and broadcasts player_removed; a reconnect presenting the
same durable identity therefore finds no existing player and creates a
brand new one whose shape set is a single freshly generated shape, not the
pre-disconnect shape set. -/
theorem onLeave_onJoin_fresh_shape (st : PhysicsState) (s2p p2s : List (String × String))
    (sid sid2 pid genId : String) (p : Player) (randX : ℚ) (now2 : ℤ)
    (hsid : lookupBy sid s2p = some pid)
    (hp : getPlayer st pid = some p) :
    getPlayer (onLeave st s2p p2s sid).1 pid = none
    ∧ (onLeave st s2p p2s sid).2.2.2 = [Broadcast.playerRemoved pid]
    ∧ (∀ s2p2 p2s2,
        (getPlayer (onJoin (onLeave st s2p p2s sid).1 s2p2 p2s2 sid2 (some pid) genId randX now2).1
            pid).map (fun q => q.shapes.map Shape.id) = some [genId]) := by
  have hleave : (onLeave st s2p p2s sid).1 = removePlayer st pid := by
    unfold onLeave
    rw [hsid]
    dsimp only
    rw [hp]
  have h0 : getPlayer (removePlayer st pid) pid = none := lookupBy_filter_self pid st.players
  have h1 : getPlayer (onLeave st s2p p2s sid).1 pid = none := by
    rw [hleave]; exact h0
  have h2 : (onLeave st s2p p2s sid).2.2.2 = [Broadcast.playerRemoved pid] := by
    unfold onLeave
    rw [hsid]
  refine ⟨h1, h2, ?_⟩
  intro s2p2 p2s2
  rw [hleave]
  unfold onJoin
  dsimp only
  rw [h0]
  dsimp only
  unfold joinNewPlayer
  dsimp only
  have hcreate : createPlayer (removePlayer st pid) pid now2
      = { removePlayer st pid with players := (removePlayer st pid).players
          ++ [(pid, { id := pid, shapes := [], disconnected := false, lastActivity := now2 })] } := by
    unfold createPlayer
    rw [h0]
    rfl
  rw [hcreate]
  have hlook : getPlayer
      { removePlayer st pid with players := (removePlayer st pid).players
        ++ [(pid, { id := pid, shapes := [], disconnected := false, lastActivity := now2 })] } pid
      = some { id := pid, shapes := [], disconnected := false, lastActivity := now2 } := by
    show lookupBy pid ((removePlayer st pid).players
      ++ [(pid, { id := pid, shapes := [], disconnected := false, lastActivity := now2 })]) = _
    rw [lookupBy_append_of_none pid _ _ h0]
    simp [lookupBy]
  rw [hlook]
  dsimp only
  rw [if_pos (show (([] : List Shape)).length = 0 from rfl)]
  unfold createShapeForPlayer
  rw [hlook]
  dsimp only
  rw [getPlayer_modifyPlayer, hlook]
  rfl

/-- Witness for the amended C2 on the solo store: after leave and rejoin
the player p owns exactly the one fresh shape pNew. -/
theorem onLeave_onJoin_fresh_shape_witness :
    getPlayer (onLeave stSolo [("sess1", "p")] [("p", "sess1")] "sess1").1 "p" = none
    ∧ (onLeave stSolo [("sess1", "p")] [("p", "sess1")] "sess1").2.2.2
        = [Broadcast.playerRemoved "p"]
    ∧ (getPlayer (onJoin (onLeave stSolo [("sess1", "p")] [("p", "sess1")] "sess1").1
          [] [] "sess2" (some "p") "pNew" 0 200).1 "p").map (fun q => q.shapes.map Shape.id)
        = some ["pNew"] := by
  have h := onLeave_onJoin_fresh_shape stSolo [("sess1", "p")] [("p", "sess1")]
    "sess1" "sess2" "p" "pNew" (playerFix "p" [shapeFix "s1" 10 20 1 2]) 0 200
    (by rfl) (by rfl)
  exact ⟨h.1, h.2.1, h.2.2 [] []⟩

/-- Counterexample for C2 as stated: the pre-disconnect shape set of
player p is the single shape s1, but after disconnecting and reconnecting
with the same identity the shape set is the single fresh shape pNew, so
the round trip is not the identity on the shape set. -/
theorem onLeave_onJoin_not_identity_ce :
    (getPlayer stSolo "p").map (fun q => q.shapes.map Shape.id) = some ["s1"]
    ∧ (getPlayer (onJoin (onLeave stSolo [("sess1", "p")] [("p", "sess1")] "sess1").1
          [] [] "sess2" (some "p") "pNew" 0 200).1 "p").map (fun q => q.shapes.map Shape.id)
        = some ["pNew"]
    ∧ (["pNew"] : List String) ≠ ["s1"] := by
  refine ⟨by decide, ?_, by decide⟩
  decide

theorem countP_filterMap_resetBroadcast (w h : ℚ) (rand : String → ℚ) (now : ℤ)
    (pid sid : String) (shapes : List Shape) :
    ((shapes.filterMap (fun s => resetBroadcast w h (rand s.id) now pid s)).countP
        (Broadcast.namesShape sid))
      = shapes.countP (fun t => checkShapeOOB w h t && (t.id == sid)) := by
  induction shapes with
  | nil => rfl
  | cons s rest ih =>
    by_cases hoob : checkShapeOOB w h s = true
    · have hhead : resetBroadcast w h (rand s.id) now pid s
          = some (Broadcast.physicsAction pid s.id
            { type := "position", shapeId := none, x := some (rand s.id * (w - 200) + 100),
              y := some (h - 50), angle := some 0, velocity := some ⟨0, 0⟩, timestamp := now }) := by
        simp [resetBroadcast, hoob]
      rw [List.filterMap_cons, hhead]
      simp only [List.countP_cons, ih, Broadcast.namesShape, hoob, Bool.true_and]
    · have hhead : resetBroadcast w h (rand s.id) now pid s = none := by
        simp [resetBroadcast, hoob]
      have hoob' : checkShapeOOB w h s = false := by
        cases hb : checkShapeOOB w h s
        · rfl
        · exact absurd hb hoob
      rw [List.filterMap_cons, hhead]
      simp [List.countP_cons, ih, hoob']

theorem countP_resetBroadcasts (players : List (String × Player)) (w h : ℚ)
    (rand : String → ℚ) (now : ℤ) (sid : String) :
    ((players.foldr (fun kv acc =>
        kv.2.shapes.filterMap (fun s => resetBroadcast w h (rand s.id) now kv.1 s) ++ acc)
          []).countP (Broadcast.namesShape sid))
      = players.foldr (fun kv acc =>
          kv.2.shapes.countP (fun t => checkShapeOOB w h t && (t.id == sid)) + acc) 0 := by
  induction players with
  | nil => rfl
  | cons kv rest ih =>
    simp only [List.foldr_cons, List.countP_append, countP_filterMap_resetBroadcast, ih]

theorem foldr_shapes_countP_mono (players : List (String × Player)) (q q' : Shape → Bool)
    (h : ∀ t, q t = true → q' t = true) :
    players.foldr (fun kv acc => kv.2.shapes.countP q + acc) 0
      ≤ players.foldr (fun kv acc => kv.2.shapes.countP q' + acc) 0 := by
  induction players with
  | nil => exact le_refl 0
  | cons kv rest ih =>
    simp only [List.foldr_cons]
    exact Nat.add_le_add (List.countP_mono_left (fun x _ => h x)) ih

theorem foldr_shapes_countP_pos (players : List (String × Player)) (q : Shape → Bool)
    (pid : String) (p : Player) (s : Shape)
    (hmem : (pid, p) ∈ players) (hs : s ∈ p.shapes) (hq : q s = true) :
    0 < players.foldr (fun kv acc => kv.2.shapes.countP q + acc) 0 := by
  induction players with
  | nil => cases hmem
  | cons kv rest ih =>
    simp only [List.foldr_cons]
    rcases List.mem_cons.mp hmem with heq | hmem'
    · subst heq
      have hpos : 0 < p.shapes.countP q := List.countP_pos_iff.mpr ⟨s, hs, hq⟩
      dsimp only
      omega
    · have := ih hmem'
      omega

theorem totalShapes_foldr_map (players : List (String × Player)) (f : String × Player → Shape → Shape) :
    ((players.map (fun kv => (kv.1, { kv.2 with shapes := kv.2.shapes.map (f kv) }))).foldr
        (fun kv acc => kv.2.shapes.length + acc) 0)
      = players.foldr (fun kv acc => kv.2.shapes.length + acc) 0 := by
  induction players with
  | nil => rfl
  | cons kv rest ih => simp [ih]

/-- C5, amended: within one correction tick an out of bounds shape is
repositioned to x in the half open band from 100 to 2300 (that is,
100 plus the random draw times 2200) and y = 1750, its velocity is zeroed,
no shape is destroyed, and exactly one corrective broadcast names it.  The
claims upper bound 2200 for x is too small; see the counterexample. -/
theorem checkAndReset_corrects_oob_shape (st : PhysicsState) (rand : String → ℚ) (now : ℤ)
    (pid : String) (p : Player) (s : Shape)
    (hw : st.boundaryWidth = 2400) (hh : st.boundaryHeight = 1800)
    (hrand : ∀ sid, 0 ≤ rand sid ∧ rand sid < 1)
    (hp : (pid, p) ∈ st.players) (hs : s ∈ p.shapes)
    (hoob : checkShapeOOB st.boundaryWidth st.boundaryHeight s = true)
    (huniq : countShapesWith st (fun t => t.id == s.id) = 1) :
    (∃ p', (pid, p') ∈ (checkAndResetOutOfBoundsShapes st rand now).1.players
      ∧ ∃ s', s' ∈ p'.shapes ∧ s'.id = s.id
        ∧ 100 ≤ s'.x ∧ s'.x < 2300 ∧ s'.y = 1750 ∧ s'.velocity = ⟨0, 0⟩)
    ∧ totalShapes (checkAndResetOutOfBoundsShapes st rand now).1 = totalShapes st
    ∧ ((checkAndResetOutOfBoundsShapes st rand now).2.countP (Broadcast.namesShape s.id)) = 1 := by
  refine ⟨?_, ?_, ?_⟩
  · refine ⟨{ p with shapes := p.shapes.map (fun (t : Shape) =>
        resetOOBShape st.boundaryWidth st.boundaryHeight (rand t.id) now t) }, ?_, ?_⟩
    · exact List.mem_map_of_mem
        (fun kv => (kv.1, { kv.2 with shapes := kv.2.shapes.map (fun (t : Shape) =>
          resetOOBShape st.boundaryWidth st.boundaryHeight (rand t.id) now t) })) hp
    · refine ⟨resetOOBShape st.boundaryWidth st.boundaryHeight (rand s.id) now s, ?_, ?_⟩
      · exact List.mem_map_of_mem _ hs
      · rcases hrand s.id with ⟨hr0, hr1⟩
        unfold resetOOBShape
        rw [if_pos hoob, hw, hh]
        refine ⟨rfl, ?_, ?_, ?_, rfl⟩
        · show (100 : ℚ) ≤ rand s.id * (2400 - 200) + 100
          nlinarith
        · show rand s.id * (2400 - 200) + 100 < 2300
          nlinarith
        · show (1800 : ℚ) - 50 = 1750
          norm_num
  · exact totalShapes_foldr_map st.players
      (fun _ t => resetOOBShape st.boundaryWidth st.boundaryHeight (rand t.id) now t)
  · have hcnt : ((checkAndResetOutOfBoundsShapes st rand now).2.countP (Broadcast.namesShape s.id))
        = countShapesWith st (fun t =>
            checkShapeOOB st.boundaryWidth st.boundaryHeight t && (t.id == s.id)) :=
      countP_resetBroadcasts st.players st.boundaryWidth st.boundaryHeight rand now s.id
    have hle : countShapesWith st (fun t =>
          checkShapeOOB st.boundaryWidth st.boundaryHeight t && (t.id == s.id))
        ≤ countShapesWith st (fun t => t.id == s.id) :=
      foldr_shapes_countP_mono st.players
        (fun t => checkShapeOOB st.boundaryWidth st.boundaryHeight t && (t.id == s.id))
        (fun t => t.id == s.id)
        (fun t ht => by
          have h2 : checkShapeOOB st.boundaryWidth st.boundaryHeight t = true
              ∧ (t.id == s.id) = true := by simpa using ht
          exact h2.2)
    have hpos : 0 < countShapesWith st (fun t =>
        checkShapeOOB st.boundaryWidth st.boundaryHeight t && (t.id == s.id)) :=
      foldr_shapes_countP_pos st.players
        (fun t => checkShapeOOB st.boundaryWidth st.boundaryHeight t && (t.id == s.id))
        pid p s hp hs (by simp [hoob])
    rw [hcnt]
    omega

/-- Witness for the amended C5: the shape at x = -150 is reset into the
band with the random draw one half. -/
theorem checkAndReset_corrects_oob_shape_witness :
    (∃ p', ("p", p') ∈ (checkAndResetOutOfBoundsShapes stOOB (fun _ => 1/2) 1000).1.players
      ∧ ∃ s', s' ∈ p'.shapes ∧ s'.id = "s"
        ∧ 100 ≤ s'.x ∧ s'.x < 2300 ∧ s'.y = 1750 ∧ s'.velocity = ⟨0, 0⟩)
    ∧ totalShapes (checkAndResetOutOfBoundsShapes stOOB (fun _ => 1/2) 1000).1 = totalShapes stOOB
    ∧ ((checkAndResetOutOfBoundsShapes stOOB (fun _ => 1/2) 1000).2.countP
        (Broadcast.namesShape "s")) = 1 :=
  checkAndReset_corrects_oob_shape stOOB (fun _ => 1/2) 1000 "p"
    (playerFix "p" [shapeFix "s" (-150) 500 3 4]) (shapeFix "s" (-150) 500 3 4)
    (by rfl) (by rfl) (fun _ => ⟨by norm_num, by norm_num⟩)
    (by decide) (by decide) (by decide) (by decide)

/-- Counterexample for C5 as stated: with random draw 99/100 the corrected
x is 2278, outside the claimed interval from 100 to 2200. -/
theorem checkAndReset_x_beyond_2200_ce :
    ((getShape (checkAndResetOutOfBoundsShapes stOOB (fun _ => 99/100) 1000).1 "p" "s").map
        Shape.x) = some 2278
    ∧ ¬((2278 : ℚ) ≤ 2200) := by
  constructor
  · norm_num [getShape, getPlayer, lookupBy, checkAndResetOutOfBoundsShapes, stOOB,
      resetOOBShape, checkShapeOOB, shapeFix, playerFix, Shape.setPosition, Shape.setVelocity,
      List.find?]
  · norm_num

/-- Witness for C10 on the store with the stale disconnected player q and
the connected player r. -/
theorem cleanupInactivePlayers_correct_witness :
    (∀ pid p, (pid, p) ∈ stStale.players → p.disconnected = false →
        (pid, p) ∈ (cleanupInactivePlayers stStale 300000 400000).2.players)
    ∧ (∀ pid p, (pid, p) ∈ stStale.players →
        (pid, p) ∉ (cleanupInactivePlayers stStale 300000 400000).2.players →
        p.disconnected = true ∧ (400000 : ℤ) - p.lastActivity > 300000)
    ∧ (cleanupInactivePlayers stStale 300000 400000).1
        = stStale.players.length - (cleanupInactivePlayers stStale 300000 400000).2.players.length :=
  cleanupInactivePlayers_correct stStale 300000 400000 (by decide)

end FlingFish
